import Mathlib

set_option maxRecDepth 40000

/-!
# Verification of the yves MITM proxy dataplane

A shallow embedding, in Lean 4, of the dataplane of the `rhaidiz/yves`
Go proxy: the RFC 6455 WebSocket frame codec (`WebsocketFragment.Write`,
`ReadWebsocketFragment`, `xorEncrypt`), the handshake accept-key
computation (`computeAcceptKey` over SHA-1 and base64), the header
predicates (`headerContains`, `isWebSocketRequest`), the request
forwarding logic (`forwardReq`), the certificate cache (`getCert`) and
the WebSocket relay pump loop (`interceptWebsocket`).

Go bytes are modelled as `Nat` values (< 256 where produced by the code;
Go's `byte(x)` conversion is written `x % 256`).  Go slices are `List Nat`.
Functions that can panic at runtime (index out of range, modulo by zero)
return `Option`/an explicit outcome, with `none` / a dedicated constructor
standing for the panic.
-/

namespace Yves

/-! ## Bit constants (source: frame codec constant block) -/

def finalBit : Nat := 128
def rsv1Bit : Nat := 64
def rsv2Bit : Nat := 32
def rsv3Bit : Nat := 16
def maskBit : Nat := 128

/-! ## WebsocketFragment (source: `type WebsocketFragment struct`)

`OpCode` is a Go `int` holding a 4-bit opcode per the data model;
`PayloadLength` is a Go `uint64`.  Both are modelled as `Nat`; the
machine-type bounds (`OpCode < 16` for a well-formed 4-bit opcode,
`PayloadLength < 2^64` for `uint64`) are stated as a well-formedness
predicate where a theorem needs them. -/

structure WebsocketFragment where
  FinBit : Bool
  Rsv1 : Bool
  Rsv2 : Bool
  Rsv3 : Bool
  OpCode : Nat
  MaskBit : Bool
  PayloadLength : Nat
  Key : List Nat
  Data : List Nat
deriving DecidableEq, Repr

/-- Machine-type/data-model bounds on a fragment: the opcode is a 4-bit
value (spec data model; Go stores it in an `int`) and the payload length
fits the Go `uint64` that holds it. -/
def WellFormed (f : WebsocketFragment) : Prop :=
  f.OpCode < 16 ∧ f.PayloadLength < 2 ^ 64

instance (f : WebsocketFragment) : Decidable (WellFormed f) := by
  unfold WellFormed; infer_instance

/-! ## xorEncrypt (source: `func xorEncrypt(data, key []byte) []byte`)

The Go loop `for i, b := range data { encrypted[i] = b ^ key[i%keyLen] }`
panics with a division-by-zero runtime error when `data` is non-empty and
`key` is empty (the modulo `i % keyLen` with `keyLen == 0`).  The panic is
modelled as `none`. -/

def xorEncryptAux (key : List Nat) (i : Nat) : List Nat → List Nat
  | [] => []
  | b :: rest => (b ^^^ key.getD (i % key.length) 0) :: xorEncryptAux key (i + 1) rest

def xorEncrypt (data key : List Nat) : Option (List Nat) :=
  match data, key with
  | [], _ => some []
  | _ :: _, [] => none
  | _ :: _, _ :: _ => some (xorEncryptAux key 0 data)

/-! ## Encoding (source: `func (frame *WebsocketFragment) Write(w io.Writer) error`)

The Go method builds the whole frame in a local `header` slice and performs
a single `w.Write(header)` at the end; on the mask-key-length error path it
returns before anything reaches the sink, and on the modulo-by-zero panic
path nothing reaches the sink either.  `WriteResult` records the three
possible outcomes; `writtenBytes` is the byte sequence delivered to the
sink. -/

inductive WriteResult where
  | ok (bytes : List Nat)
  | maskKeyError
  | panicModByZero
deriving DecidableEq, Repr

def writtenBytes : WriteResult → List Nat
  | .ok bs => bs
  | .maskKeyError => []
  | .panicModByZero => []

/-- Byte 0 of the encoded frame: `firstByte |= finalBit` for each set flag,
then `firstByte |= byte(frame.OpCode)` (Go `byte(_)` truncates mod 256). -/
def WebsocketFragment.firstByte (frame : WebsocketFragment) : Nat :=
  (if frame.FinBit then finalBit else 0) |||
  (if frame.Rsv1 then rsv1Bit else 0) |||
  (if frame.Rsv2 then rsv2Bit else 0) |||
  (if frame.Rsv3 then rsv3Bit else 0) |||
  (frame.OpCode % 256)

/-- Byte 1 and the extended-length bytes: the source sets
`secondByte |= maskBit` when masked and then selects the 7-bit, 16-bit or
64-bit length form  (`payloadLength < 126` / `< 65536` / otherwise),
appending the big-endian length bytes produced with `byte(payloadLength>>k)`. -/
def lengthHeader (masked : Bool) (payloadLength : Nat) : List Nat :=
  let secondByte := if masked then maskBit else 0
  if payloadLength < 126 then
    [secondByte ||| payloadLength % 256]
  else if payloadLength < 65536 then
    [secondByte ||| 126, (payloadLength >>> 8) % 256, payloadLength % 256]
  else
    [secondByte ||| 127,
      (payloadLength >>> 56) % 256, (payloadLength >>> 48) % 256,
      (payloadLength >>> 40) % 256, (payloadLength >>> 32) % 256,
      (payloadLength >>> 24) % 256, (payloadLength >>> 16) % 256,
      (payloadLength >>> 8) % 256, payloadLength % 256]

/-- `WebsocketFragment.Write`: header bytes, then (when masked) the
mask-key-length check and the key bytes, then `xorEncrypt(frame.Data,
frame.Key)` unconditionally — the XOR with the key happens even for
unmasked frames, exactly as in the source. -/
def WebsocketFragment.Write (frame : WebsocketFragment) : WriteResult :=
  let header := frame.firstByte :: lengthHeader frame.MaskBit frame.PayloadLength
  if frame.MaskBit ∧ frame.Key.length ≠ 4 then
    .maskKeyError
  else
    let header := if frame.MaskBit then header ++ frame.Key else header
    match xorEncrypt frame.Data frame.Key with
    | none => .panicModByZero
    | some encryptedData => .ok (header ++ encryptedData)

/-! ## Decoding (source: `func ReadWebsocketFragment(b *bufio.Reader)`)

`readN n` models `n` successive `b.ReadByte()` calls; `none` is the
short-read (`io.EOF`) error path.  `beUint` models
`binary.BigEndian.Uint16`/`Uint64` applied to the collected bytes. -/

def readN : Nat → List Nat → Option (List Nat × List Nat)
  | 0, xs => some ([], xs)
  | _ + 1, [] => none
  | n + 1, x :: xs =>
    match readN n xs with
    | none => none
    | some (ys, rest) => some (x :: ys, rest)

def beUint (bs : List Nat) : Nat :=
  bs.foldl (fun acc b => acc * 256 + b) 0

/-- The extended-length switch of the decoder: on `126` read two bytes, on
`127` read eight bytes, otherwise the 7-bit value is the length. -/
def readLength (payloadLength0 : Nat) (r : List Nat) : Option (Nat × List Nat) :=
  if payloadLength0 = 126 then
    match readN 2 r with
    | none => none
    | some (bs, rest) => some (beUint bs, rest)
  else if payloadLength0 = 127 then
    match readN 8 r with
    | none => none
    | some (bs, rest) => some (beUint bs, rest)
  else
    some (payloadLength0, r)

/-- The key step of the decoder: `key := make([]byte, 4)` (all zeros) and,
when the mask bit is set, four key bytes are read into it. -/
def readKey (masked : Bool) (r : List Nat) : Option (List Nat × List Nat) :=
  if masked then readN 4 r else some (List.replicate 4 0, r)

def ReadWebsocketFragment (input : List Nat) : Option (WebsocketFragment × List Nat) :=
  match input with
  | b0 :: b1 :: r2 =>
    match readLength (b1 &&& 127) r2 with
    | none => none
    | some (payloadLength, r3) =>
      match readKey (b1 &&& maskBit != 0) r3 with
      | none => none
      | some (key, r4) =>
        match readN payloadLength r4 with
        | none => none
        | some (payload, r5) =>
          match xorEncrypt payload key with
          | none => none
          | some data =>
            some ({ FinBit := b0 &&& finalBit != 0
                    Rsv1 := b0 &&& rsv1Bit != 0
                    Rsv2 := b0 &&& rsv2Bit != 0
                    Rsv3 := b0 &&& rsv3Bit != 0
                    OpCode := b0 &&& 15
                    MaskBit := b1 &&& maskBit != 0
                    PayloadLength := payloadLength
                    Key := key
                    Data := data }, r5)
  | _ => none

/-- Field-wise equality of fragments with the key compared only when the
mask bit is set (the comparison the round-trip claim asks for). -/
def eqModKey (f g : WebsocketFragment) : Bool :=
  f.FinBit == g.FinBit && f.Rsv1 == g.Rsv1 && f.Rsv2 == g.Rsv2 &&
  f.Rsv3 == g.Rsv3 && f.OpCode == g.OpCode && f.MaskBit == g.MaskBit &&
  f.PayloadLength == g.PayloadLength && f.Data == g.Data &&
  (!f.MaskBit || f.Key == g.Key)

/-! ## SHA-1 (source: Go `crypto/sha1`, used by `computeAcceptKey`)

`computeAcceptKey` hashes with the Go standard library's `crypto/sha1`
(FIPS 180-4 SHA-1) and encodes with `encoding/base64` `StdEncoding`.
Both are embedded here over `Nat` bytes and 32-bit words
(`% 4294967296` is the `uint32` wrap-around). -/

def rotl32 (n x : Nat) : Nat := ((x <<< n) ||| (x >>> (32 - n))) % 4294967296

def be4 (n : Nat) : List Nat :=
  [(n >>> 24) % 256, (n >>> 16) % 256, (n >>> 8) % 256, n % 256]

def sha1LenBytes (n : Nat) : List Nat :=
  [(n >>> 56) % 256, (n >>> 48) % 256, (n >>> 40) % 256, (n >>> 32) % 256,
   (n >>> 24) % 256, (n >>> 16) % 256, (n >>> 8) % 256, n % 256]

/-- Merkle–Damgård padding: a 0x80 byte, zeros to 56 mod 64, then the
64-bit big-endian bit length. -/
def sha1Pad (msg : List Nat) : List Nat :=
  msg ++ 128 :: (List.replicate ((119 - msg.length % 64) % 64) 0 ++
    sha1LenBytes (msg.length * 8))

/-- Big-endian 32-bit words of a block. -/
def words16 : List Nat → List Nat
  | a :: b :: c :: d :: rest => (a * 16777216 + b * 65536 + c * 256 + d) :: words16 rest
  | _ => []

/-- Message-schedule expansion; `revW` holds the words produced so far,
newest first. -/
def sha1Expand : Nat → List Nat → List Nat
  | 0, revW => revW.reverse
  | fuel + 1, revW =>
      sha1Expand fuel
        (rotl32 1 (revW.getD 2 0 ^^^ revW.getD 7 0 ^^^ revW.getD 13 0 ^^^ revW.getD 15 0)
          :: revW)

structure Sha1State where
  a : Nat
  b : Nat
  c : Nat
  d : Nat
  e : Nat
deriving DecidableEq, Repr

def sha1F (i b c d : Nat) : Nat :=
  if i < 20 then (b &&& c) ||| ((b ^^^ 4294967295) &&& d)
  else if i < 40 then b ^^^ c ^^^ d
  else if i < 60 then (b &&& c) ||| (b &&& d) ||| (c &&& d)
  else b ^^^ c ^^^ d

def sha1K (i : Nat) : Nat :=
  if i < 20 then 1518500249
  else if i < 40 then 1859775393
  else if i < 60 then 2400959708
  else 3395469782

def sha1Rounds : List Nat → Nat → Sha1State → Sha1State
  | [], _, st => st
  | w :: ws, i, st =>
      sha1Rounds ws (i + 1)
        { a := (rotl32 5 st.a + sha1F i st.b st.c st.d + st.e + sha1K i + w) % 4294967296
          b := st.a
          c := rotl32 30 st.b
          d := st.c
          e := st.d }

def sha1Blocks : Nat → List Nat → Sha1State → Sha1State
  | 0, _, h => h
  | _ + 1, [], h => h
  | fuel + 1, bytes, h =>
      let ws := sha1Expand 64 (words16 (bytes.take 64)).reverse
      let st := sha1Rounds ws 0 h
      sha1Blocks fuel (bytes.drop 64)
        { a := (h.a + st.a) % 4294967296, b := (h.b + st.b) % 4294967296
          c := (h.c + st.c) % 4294967296, d := (h.d + st.d) % 4294967296
          e := (h.e + st.e) % 4294967296 }

def sha1 (msg : List Nat) : List Nat :=
  let padded := sha1Pad msg
  let st := sha1Blocks padded.length padded
    { a := 1732584193, b := 4023233417, c := 2562383102, d := 271733878, e := 3285377520 }
  be4 st.a ++ be4 st.b ++ be4 st.c ++ be4 st.d ++ be4 st.e

/-! ## Base64 (source: Go `encoding/base64` `StdEncoding`) -/

def base64Alphabet : List Char :=
  "ABCDEFGHIJKLMNOPQRSTUVWXYZabcdefghijklmnopqrstuvwxyz0123456789+/".toList

def b64Char (n : Nat) : Char := base64Alphabet.getD n 'A'

def b64Chunks : List Nat → List Char
  | a :: b :: c :: rest =>
      b64Char ((a * 65536 + b * 256 + c) / 262144) ::
      b64Char ((a * 65536 + b * 256 + c) / 4096 % 64) ::
      b64Char ((a * 65536 + b * 256 + c) / 64 % 64) ::
      b64Char ((a * 65536 + b * 256 + c) % 64) :: b64Chunks rest
  | [a, b] =>
      [b64Char ((a * 65536 + b * 256) / 262144), b64Char ((a * 65536 + b * 256) / 4096 % 64),
       b64Char ((a * 65536 + b * 256) / 64 % 64), '=']
  | [a] =>
      [b64Char ((a * 65536) / 262144), b64Char ((a * 65536) / 4096 % 64), '=', '=']
  | [] => []

def base64Encode (bytes : List Nat) : String := String.mk (b64Chunks bytes)

/-! ## computeAcceptKey (source: `func computeAcceptKey(key string) string`) -/

/-- Go `[]byte(s)` for the ASCII strings this code handles. -/
def strBytes (s : String) : List Nat := s.toList.map Char.toNat

def keyGUID : List Nat := strBytes "258EAFA5-E914-47DA-95CA-C5AB0DC85B11"

/-- `sha1.New()` fed `key` then `keyGUID` hashes their concatenation;
the digest is base64-encoded. -/
def computeAcceptKey (key : String) : String :=
  base64Encode (sha1 (strBytes key ++ keyGUID))

/-! ## Headers and requests (source: `headerContains`, `isWebSocketRequest`,
`websocketHandshake`)

Go `http.Header` is a `map[string][]string`; it is modelled as an
association list with exact-key lookup (`headerGet` returns the empty list
for an absent key, as a Go map access returns a nil slice).  The pieces of
`strings` used by the source (`Split`, `TrimSpace`, `EqualFold`) are
embedded over `List Char` for the ASCII header values the proxy handles. -/

abbrev Header := List (String × List String)

def headerGet (h : Header) (name : String) : List String :=
  match h.find? (fun p => p.1 == name) with
  | none => []
  | some p => p.2

/-- Go `strings.Split(s, sep)` for a one-character separator (keeps empty
segments). -/
def goSplit (sep : Char) : List Char → List (List Char)
  | [] => [[]]
  | c :: rest =>
      if c = sep then [] :: goSplit sep rest
      else
        match goSplit sep rest with
        | [] => [[c]]
        | g :: gs => (c :: g) :: gs

def isSpaceChar (c : Char) : Bool :=
  c == ' ' || c == '\t' || c == '\n' || c == '\r'

/-- Go `strings.TrimSpace` (ASCII whitespace). -/
def trimSpace (s : List Char) : List Char :=
  ((s.dropWhile isSpaceChar).reverse.dropWhile isSpaceChar).reverse

def toLowerChar (c : Char) : Char :=
  if 'A' ≤ c ∧ c ≤ 'Z' then Char.ofNat (c.toNat + 32) else c

/-- Go `strings.EqualFold` for ASCII values. -/
def eqFold (a b : List Char) : Bool := a.map toLowerChar == b.map toLowerChar

def headerContains (header : Header) (name value : String) : Bool :=
  (headerGet header name).any (fun v =>
    ((goSplit ',' v.toList).map trimSpace).any (fun s => eqFold value.toList s))

/-- The fields of Go's `http.Request` the dataplane touches. -/
structure Request where
  requestURI : String
  urlScheme : String
  urlHost : String
  host : String
  header : Header

def isWebSocketRequest (r : Request) : Bool :=
  headerContains r.header "Connection" "upgrade" &&
  headerContains r.header "Upgrade" "websocket"

structure HandshakeResponse where
  statusCode : Nat
  header : Header
deriving DecidableEq, Repr

/-- The deterministic client-side prefix of `websocketHandshake`: the
accept-key computation and the 101 response value.  The source reads
`req.Header["Sec-Websocket-Key"][0]` unconditionally; when the request
carries no such header the slice is empty and the index-0 access panics at
runtime, modelled as `none`.  The subsequent upstream dial and 101 check
are external I/O and are not part of this value. -/
def websocketHandshakeClientResponse (req : Request) : Option HandshakeResponse :=
  match headerGet req.header "Sec-Websocket-Key" with
  | [] => none
  | secWebsocketKey :: _ =>
      some { statusCode := 101
             header := [("Sec-Websocket-Accept", [computeAcceptKey secWebsocketKey]),
                        ("Connection", ["Upgrade"]),
                        ("Upgrade", ["websocket"])] }

/-! ## forwardReq (source: `func (p *Proxy) forwardReq(...)`)

`HandleRequest` is an optional handler (a `nil` function field in Go);
`doRequest` stands for `p.HttpClient.Do` and `parseURL` for `url.Parse`
restricted to the scheme/host pair the source reads off the parsed URL —
both are external collaborators passed as oracles.  The second component
of the result records whether `HttpClient.Do` was invoked. -/

def forwardUpstream {Response : Type} (doRequest : Request → Except String Response)
    (parseURL : String → Except String (String × String))
    (clientRequest : Request) (destinationHost : String) :
    Except String Response × Bool :=
  let r1 := { clientRequest with requestURI := "" }
  match parseURL destinationHost with
  | .error e => (.error e, false)
  | .ok (scheme, host) => (doRequest { r1 with urlScheme := scheme, urlHost := host }, true)

def forwardReq {Response : Type}
    (handleRequest : Option (Int → Request → Option Response))
    (doRequest : Request → Except String Response)
    (parseURL : String → Except String (String × String))
    (session : Int) (clientRequest : Request) (destinationHost : String) :
    Except String Response × Bool :=
  match handleRequest with
  | some h =>
      match h session clientRequest with
      | some hResp => (.ok hResp, false)
      | none => forwardUpstream doRequest parseURL clientRequest destinationHost
  | none => forwardUpstream doRequest parseURL clientRequest destinationHost

/-! ## getCert (source: `func getCert(ca tls.Certificate, host string)`)

The process-wide `certs` map is modelled as an association list threaded
through the call; `generateCert` stands for `GenerateCert(ca, host)`
(crypto randomness and X.509 signing are external).  The `Bool` in the
result records whether `GenerateCert` was invoked. -/

def certsLookup {Cert : Type} (certs : List (String × Cert)) (host : String) : Option Cert :=
  match certs.find? (fun p => p.1 == host) with
  | none => none
  | some p => some p.2

def getCert {Cert : Type} (generateCert : String → Except String Cert)
    (certs : List (String × Cert)) (host : String) :
    Except String Cert × List (String × Cert) × Bool :=
  match certsLookup certs host with
  | some val => (.ok val, certs, false)
  | none =>
      match generateCert host with
      | .error e => (.error e, certs, true)
      | .ok cert => (.ok cert, (host, cert) :: certs, true)

/-! ## The relay pump loop (source: `func (proxy *Proxy) interceptWebsocket`)

One iteration of the `for` loop.  `Peek(1)` on an exhausted source returns
`io.EOF` and the body executes `continue`; a decode error is logged and the
body executes `continue` (by then every available byte has been consumed,
since `ReadByte` only fails on an empty reader); otherwise the fragment is
passed through the handler and written to `dst`.  No statement in the loop
body breaks or returns, so no path produces `loopExit`; the constructor
exists so that termination of the loop is expressible. -/

inductive PumpStep where
  | loopContinue (src : List Nat) (emitted : List Nat)
  | loopExit (src : List Nat)
deriving DecidableEq, Repr

def interceptBody (handler : Option (WebsocketFragment → WebsocketFragment))
    (src : List Nat) : PumpStep :=
  match src with
  | [] => .loopContinue [] []
  | _ :: _ =>
      match ReadWebsocketFragment src with
      | none => .loopContinue [] []
      | some (websocFrag, rest) =>
          let websocFrag := match handler with
            | some h => h websocFrag
            | none => websocFrag
          .loopContinue rest (writtenBytes websocFrag.Write)

/-- `n` iterations of the pump loop; the `Bool` is true when some
iteration exited the loop. -/
def pumpIter (handler : Option (WebsocketFragment → WebsocketFragment)) :
    Nat → List Nat → List Nat × Bool
  | 0, src => (src, false)
  | n + 1, src =>
      match interceptBody handler src with
      | .loopExit s => (s, true)
      | .loopContinue s _ => pumpIter handler n s

/-! ## Concrete inputs used by witnesses and counterexamples -/

/-- The repository test's valid masked frame (test case "Valid Input"). -/
def exFrameA : WebsocketFragment :=
  { FinBit := true, Rsv1 := false, Rsv2 := false, Rsv3 := false,
    OpCode := 2, MaskBit := true, PayloadLength := 11,
    Key := [26, 43, 60, 77],
    Data := [104, 101, 108, 108, 111, 32, 119, 111, 114, 108, 108] }

/-- The repository test's frame with a 5-byte mask key
(test case "Invalid key length"). -/
def exFrameBadKey : WebsocketFragment :=
  { exFrameA with Key := [26, 43, 60, 77, 0] }

/-- Unmasked frame with a non-zero key: encode XORs its payload anyway. -/
def cexC1Frame : WebsocketFragment :=
  { FinBit := true, Rsv1 := false, Rsv2 := false, Rsv3 := false,
    OpCode := 2, MaskBit := false, PayloadLength := 1,
    Key := [1, 1, 1, 1], Data := [0] }

/-- A second unmasked frame with a non-zero key (distinct counterexample
input for the verbatim-payload claim). -/
def cexC3Frame : WebsocketFragment :=
  { FinBit := true, Rsv1 := false, Rsv2 := false, Rsv3 := false,
    OpCode := 2, MaskBit := false, PayloadLength := 1,
    Key := [5, 0, 0, 0], Data := [7] }

/-- Unmasked frame with the all-zero key a decode would produce. -/
def exC3Frame : WebsocketFragment :=
  { FinBit := true, Rsv1 := false, Rsv2 := false, Rsv3 := false,
    OpCode := 1, MaskBit := false, PayloadLength := 1,
    Key := [0, 0, 0, 0], Data := [9] }

/-- Unmasked frame used to exercise the 16-bit length encoding. -/
def exC4Frame : WebsocketFragment :=
  { FinBit := true, Rsv1 := false, Rsv2 := false, Rsv3 := false,
    OpCode := 2, MaskBit := false, PayloadLength := 126,
    Key := [0, 0, 0, 0], Data := [] }

/-- Unmasked frame with an empty key and non-empty data: the XOR step's
`i % len(key)` divides by zero. -/
def exC9Frame : WebsocketFragment :=
  { FinBit := false, Rsv1 := false, Rsv2 := false, Rsv3 := false,
    OpCode := 1, MaskBit := false, PayloadLength := 3,
    Key := [], Data := [1, 2, 3] }

/-- An upgrade request carrying `Connection: Upgrade` and
`Upgrade: websocket` but no `Sec-WebSocket-Key` header. -/
def exC10Request : Request :=
  { requestURI := "", urlScheme := "", urlHost := "", host := "",
    header := [("Connection", ["Upgrade"]), ("Upgrade", ["websocket"])] }

/-- A plaintext request toward the blocked host of spec scenario E. -/
def exC6Request : Request :=
  { requestURI := "http://blocked.example/", urlScheme := "", urlHost := "",
    host := "blocked.example", header := [] }

/-! ## Lemmas about the codec building blocks -/

theorem xorEncryptAux_length (key : List Nat) (i : Nat) (data : List Nat) :
    (xorEncryptAux key i data).length = data.length := by
  induction data generalizing i with
  | nil => rfl
  | cons b rest ih => simp [xorEncryptAux, ih]

theorem xorEncryptAux_zero_key (key : List Nat) (hk : key ≠ [])
    (hz : ∀ b ∈ key, b = 0) (i : Nat) (data : List Nat) :
    xorEncryptAux key i data = data := by
  induction data generalizing i with
  | nil => rfl
  | cons b rest ih =>
    have hlen : 0 < key.length := List.length_pos.mpr hk
    have hmem : key.getD (i % key.length) 0 ∈ key := by
      rw [List.getD_eq_getElem key 0 (Nat.mod_lt i hlen)]
      exact List.getElem_mem _
    have h0 : key.getD (i % key.length) 0 = 0 := hz _ hmem
    simp only [xorEncryptAux, h0, Nat.xor_zero, List.cons.injEq, true_and]
    exact ih (i + 1)

theorem xorEncryptAux_involution (key : List Nat)
    (i : Nat) (data : List Nat) :
    xorEncryptAux key i (xorEncryptAux key i data) = data := by
  induction data generalizing i with
  | nil => rfl
  | cons b rest ih =>
    simp only [xorEncryptAux, Nat.xor_cancel_right, List.cons.injEq, true_and]
    exact ih (i + 1)

theorem xorEncrypt_of_key_ne_nil (data key : List Nat) (hk : key ≠ []) :
    xorEncrypt data key = some (xorEncryptAux key 0 data) := by
  cases data with
  | nil => simp [xorEncrypt, xorEncryptAux]
  | cons b rest =>
    cases key with
    | nil => exact absurd rfl hk
    | cons k ks => rfl

theorem readN_append (xs rest : List Nat) :
    readN xs.length (xs ++ rest) = some (xs, rest) := by
  induction xs with
  | nil => rfl
  | cons x xs ih => simp [readN, ih]

theorem readN_self (xs : List Nat) : readN xs.length xs = some (xs, []) := by
  have h := readN_append xs []
  rwa [List.append_nil] at h

/-- Decoding byte 0: for a 4-bit opcode, the flag bits and the opcode are
recovered exactly from the byte the encoder builds. -/
theorem firstByte_bits :
    ∀ op < 16, ∀ (bf b1 b2 b3 : Bool),
      ((((if bf then 128 else 0) ||| (if b1 then 64 else 0) |||
         (if b2 then 32 else 0) ||| (if b3 then 16 else 0) ||| op % 256) &&& 128 != 0) = bf ∧
       (((if bf then 128 else 0) ||| (if b1 then 64 else 0) |||
         (if b2 then 32 else 0) ||| (if b3 then 16 else 0) ||| op % 256) &&& 64 != 0) = b1 ∧
       (((if bf then 128 else 0) ||| (if b1 then 64 else 0) |||
         (if b2 then 32 else 0) ||| (if b3 then 16 else 0) ||| op % 256) &&& 32 != 0) = b2 ∧
       (((if bf then 128 else 0) ||| (if b1 then 64 else 0) |||
         (if b2 then 32 else 0) ||| (if b3 then 16 else 0) ||| op % 256) &&& 16 != 0) = b3 ∧
       (((if bf then 128 else 0) ||| (if b1 then 64 else 0) |||
         (if b2 then 32 else 0) ||| (if b3 then 16 else 0) ||| op % 256) &&& 15) = op) := by
  decide

/-- Decoding byte 1 in the 7-bit length form. -/
theorem secondByte_bits_small :
    ∀ n < 126, ∀ (m : Bool),
      ((((if m then 128 else 0) ||| n % 256) &&& 128 != 0) = m ∧
       (((if m then 128 else 0) ||| n % 256) &&& 127) = n) := by
  decide

/-- Decoding byte 1 when it carries the literal 126. -/
theorem secondByte_bits_126 :
    ∀ (m : Bool),
      ((((if m then 128 else 0) ||| 126) &&& 128 != 0) = m ∧
       (((if m then 128 else 0) ||| 126) &&& 127) = 126) := by
  decide

/-- Decoding byte 1 when it carries the literal 127. -/
theorem secondByte_bits_127 :
    ∀ (m : Bool),
      ((((if m then 128 else 0) ||| 127) &&& 128 != 0) = m ∧
       (((if m then 128 else 0) ||| 127) &&& 127) = 127) := by
  decide

/-- `binary.BigEndian.Uint16` undoes the two-byte length encoding. -/
theorem beUint_two (n : Nat) (h : n < 65536) :
    beUint [(n >>> 8) % 256, n % 256] = n := by
  simp only [beUint, List.foldl, Nat.shiftRight_eq_div_pow]
  norm_num
  omega

/-- `binary.BigEndian.Uint64` undoes the eight-byte length encoding. -/
theorem beUint_eight (n : Nat) (h : n < 2 ^ 64) :
    beUint [(n >>> 56) % 256, (n >>> 48) % 256, (n >>> 40) % 256,
            (n >>> 32) % 256, (n >>> 24) % 256, (n >>> 16) % 256,
            (n >>> 8) % 256, n % 256] = n := by
  simp only [beUint, List.foldl, Nat.shiftRight_eq_div_pow]
  norm_num
  omega

/-! ## Unfolding lemmas for the encoder -/

theorem lengthHeader_small (m : Bool) (L : Nat) (h : L < 126) :
    lengthHeader m L = [(if m then maskBit else 0) ||| L % 256] := by
  unfold lengthHeader
  rw [if_pos h]

theorem lengthHeader_mid (m : Bool) (L : Nat) (h1 : ¬ L < 126) (h2 : L < 65536) :
    lengthHeader m L =
      [(if m then maskBit else 0) ||| 126, (L >>> 8) % 256, L % 256] := by
  unfold lengthHeader
  rw [if_neg h1, if_pos h2]

theorem lengthHeader_big (m : Bool) (L : Nat) (h1 : ¬ L < 126) (h2 : ¬ L < 65536) :
    lengthHeader m L =
      [(if m then maskBit else 0) ||| 127,
        (L >>> 56) % 256, (L >>> 48) % 256, (L >>> 40) % 256, (L >>> 32) % 256,
        (L >>> 24) % 256, (L >>> 16) % 256, (L >>> 8) % 256, L % 256] := by
  unfold lengthHeader
  rw [if_neg h1, if_neg h2]

/-- The encoder on a masked frame with a 4-byte key: the full frame,
first byte, length header, key, then the masked payload. -/
theorem Write_ok_masked (f : WebsocketFragment) (hm : f.MaskBit = true)
    (hk : f.Key.length = 4) :
    f.Write = .ok (f.firstByte ::
      (lengthHeader true f.PayloadLength ++ (f.Key ++ xorEncryptAux f.Key 0 f.Data))) := by
  have hkne : f.Key ≠ [] := by
    intro h
    rw [h] at hk
    simp at hk
  unfold WebsocketFragment.Write
  rw [if_neg (by simp [hk]), hm,
    xorEncrypt_of_key_ne_nil f.Data f.Key hkne]
  simp [List.append_assoc]

/-- The encoder on an unmasked frame whose key bytes are all zero (and
whose key is non-empty whenever the data is): the payload goes out
verbatim. -/
theorem Write_ok_unmasked (f : WebsocketFragment) (hm : f.MaskBit = false)
    (hz : ∀ b ∈ f.Key, b = 0) (hne : f.Data ≠ [] → f.Key ≠ []) :
    f.Write = .ok (f.firstByte :: (lengthHeader false f.PayloadLength ++ f.Data)) := by
  unfold WebsocketFragment.Write
  rw [if_neg (by simp [hm]), hm]
  cases hd : f.Data with
  | nil => simp [xorEncrypt]
  | cons b rest =>
    have hkne : f.Key ≠ [] := hne (by rw [hd]; simp)
    rw [← hd, xorEncrypt_of_key_ne_nil f.Data f.Key hkne,
      xorEncryptAux_zero_key f.Key hkne hz 0 f.Data]
    simp

/-! ## Unfolding lemmas for the decoder -/

theorem readLength_small (L : Nat) (hL : L < 126) (r : List Nat) :
    readLength L r = some (L, r) := by
  unfold readLength
  rw [if_neg (by omega), if_neg (by omega)]

theorem readLength_two (L : Nat) (r : List Nat) :
    readLength 126 ([(L >>> 8) % 256, L % 256] ++ r) =
      some (beUint [(L >>> 8) % 256, L % 256], r) := by
  have h : readN 2 ([(L >>> 8) % 256, L % 256] ++ r) =
      some ([(L >>> 8) % 256, L % 256], r) :=
    readN_append [(L >>> 8) % 256, L % 256] r
  unfold readLength
  rw [if_pos rfl, h]

theorem readLength_eight (L : Nat) (r : List Nat) :
    readLength 127
        ([(L >>> 56) % 256, (L >>> 48) % 256, (L >>> 40) % 256, (L >>> 32) % 256,
          (L >>> 24) % 256, (L >>> 16) % 256, (L >>> 8) % 256, L % 256] ++ r) =
      some (beUint [(L >>> 56) % 256, (L >>> 48) % 256, (L >>> 40) % 256,
          (L >>> 32) % 256, (L >>> 24) % 256, (L >>> 16) % 256,
          (L >>> 8) % 256, L % 256], r) := by
  have h : readN 8
      ([(L >>> 56) % 256, (L >>> 48) % 256, (L >>> 40) % 256, (L >>> 32) % 256,
        (L >>> 24) % 256, (L >>> 16) % 256, (L >>> 8) % 256, L % 256] ++ r) =
      some ([(L >>> 56) % 256, (L >>> 48) % 256, (L >>> 40) % 256, (L >>> 32) % 256,
        (L >>> 24) % 256, (L >>> 16) % 256, (L >>> 8) % 256, L % 256], r) :=
    readN_append
      [(L >>> 56) % 256, (L >>> 48) % 256, (L >>> 40) % 256, (L >>> 32) % 256,
        (L >>> 24) % 256, (L >>> 16) % 256, (L >>> 8) % 256, L % 256] r
  unfold readLength
  rw [if_neg (by omega), if_pos rfl, h]

theorem readKey_masked (key r : List Nat) (hlen : key.length = 4) :
    readKey true (key ++ r) = some (key, r) := by
  unfold readKey
  rw [if_pos rfl, ← hlen, readN_append]

theorem readKey_unmasked (r : List Nat) :
    readKey false r = some (List.replicate 4 0, r) := rfl

/-- Composition of the decoder steps on a frame laid out as
byte 0, byte 1, extended-length bytes, key bytes, payload bytes. -/
theorem ReadWebsocketFragment_build
    (b0 b1 L : Nat) (ext keyPart payload key : List Nat)
    (h1 : readLength (b1 &&& 127) (ext ++ (keyPart ++ payload)) = some (L, keyPart ++ payload))
    (h2 : readKey (b1 &&& maskBit != 0) (keyPart ++ payload) = some (key, payload))
    (h3 : payload.length = L)
    (hk : key ≠ []) :
    ReadWebsocketFragment (b0 :: b1 :: (ext ++ (keyPart ++ payload))) =
      some ({ FinBit := b0 &&& finalBit != 0, Rsv1 := b0 &&& rsv1Bit != 0,
              Rsv2 := b0 &&& rsv2Bit != 0, Rsv3 := b0 &&& rsv3Bit != 0,
              OpCode := b0 &&& 15, MaskBit := b1 &&& maskBit != 0,
              PayloadLength := L, Key := key,
              Data := xorEncryptAux key 0 payload }, []) := by
  have hL : readN L payload = some (payload, []) := by
    rw [← h3]
    exact readN_self payload
  simp only [ReadWebsocketFragment, h1, h2, hL,
    xorEncrypt_of_key_ne_nil payload key hk]

/-- Field-wise sufficient condition for `eqModKey`. -/
theorem eqModKey_of_fields (f g : WebsocketFragment)
    (h1 : g.FinBit = f.FinBit) (h2 : g.Rsv1 = f.Rsv1) (h3 : g.Rsv2 = f.Rsv2)
    (h4 : g.Rsv3 = f.Rsv3) (h5 : g.OpCode = f.OpCode) (h6 : g.MaskBit = f.MaskBit)
    (h7 : g.PayloadLength = f.PayloadLength) (h8 : g.Data = f.Data)
    (h9 : f.MaskBit = true → g.Key = f.Key) :
    eqModKey g f = true := by
  simp only [eqModKey, h1, h2, h3, h4, h5, h6, h7, h8]
  cases hmb : f.MaskBit with
  | false => simp
  | true => simp [h9 hmb]

/-- Round-trip, masked case, abstracted over the length-header shape. -/
theorem roundtrip_masked (f : WebsocketFragment) (hop : f.OpCode < 16)
    (hmask : f.MaskBit = true) (hk4 : f.Key.length = 4)
    (hlen : f.Data.length = f.PayloadLength)
    (sb : Nat) (ext : List Nat)
    (hlh : lengthHeader true f.PayloadLength = sb :: ext)
    (hsb : (sb &&& maskBit != 0) = true)
    (h1 : ∀ r : List Nat, readLength (sb &&& 127) (ext ++ r) = some (f.PayloadLength, r)) :
    ∃ w g, f.Write = .ok w ∧ ReadWebsocketFragment w = some (g, []) ∧
      eqModKey g f = true := by
  have hkne : f.Key ≠ [] := by
    intro h
    rw [h] at hk4
    simp at hk4
  have hw := Write_ok_masked f hmask hk4
  rw [hlh] at hw
  have h2 : readKey (sb &&& maskBit != 0)
      (f.Key ++ xorEncryptAux f.Key 0 f.Data) =
      some (f.Key, xorEncryptAux f.Key 0 f.Data) := by
    rw [show (sb &&& maskBit != 0) = true from hsb]
    exact readKey_masked f.Key _ hk4
  have h3 : (xorEncryptAux f.Key 0 f.Data).length = f.PayloadLength := by
    rw [xorEncryptAux_length]
    exact hlen
  have hbits := firstByte_bits f.OpCode hop f.FinBit f.Rsv1 f.Rsv2 f.Rsv3
  refine ⟨f.firstByte :: ((sb :: ext) ++ (f.Key ++ xorEncryptAux f.Key 0 f.Data)),
    { FinBit := f.firstByte &&& finalBit != 0
      Rsv1 := f.firstByte &&& rsv1Bit != 0
      Rsv2 := f.firstByte &&& rsv2Bit != 0
      Rsv3 := f.firstByte &&& rsv3Bit != 0
      OpCode := f.firstByte &&& 15
      MaskBit := sb &&& maskBit != 0
      PayloadLength := f.PayloadLength
      Key := f.Key
      Data := xorEncryptAux f.Key 0 (xorEncryptAux f.Key 0 f.Data) },
    hw, ?_, ?_⟩
  · exact ReadWebsocketFragment_build f.firstByte sb f.PayloadLength ext f.Key
      (xorEncryptAux f.Key 0 f.Data) f.Key
      (h1 (f.Key ++ xorEncryptAux f.Key 0 f.Data)) h2 h3 hkne
  · refine eqModKey_of_fields f _ hbits.1 hbits.2.1 hbits.2.2.1 hbits.2.2.2.1
      hbits.2.2.2.2 (hsb.trans hmask.symm) rfl ?_ (fun _ => rfl)
    exact xorEncryptAux_involution f.Key 0 f.Data

/-- Round-trip, unmasked case (all key bytes zero), abstracted over the
length-header shape. -/
theorem roundtrip_unmasked (f : WebsocketFragment) (hop : f.OpCode < 16)
    (hmask : f.MaskBit = false)
    (hz : ∀ b ∈ f.Key, b = 0) (hne : f.Data ≠ [] → f.Key ≠ [])
    (hlen : f.Data.length = f.PayloadLength)
    (sb : Nat) (ext : List Nat)
    (hlh : lengthHeader false f.PayloadLength = sb :: ext)
    (hsb : (sb &&& maskBit != 0) = false)
    (h1 : ∀ r : List Nat, readLength (sb &&& 127) (ext ++ r) = some (f.PayloadLength, r)) :
    ∃ w g, f.Write = .ok w ∧ ReadWebsocketFragment w = some (g, []) ∧
      eqModKey g f = true := by
  have hw := Write_ok_unmasked f hmask hz hne
  rw [hlh] at hw
  have h2 : readKey (sb &&& maskBit != 0) (([] : List Nat) ++ f.Data) =
      some (List.replicate 4 0, f.Data) := by
    rw [show (sb &&& maskBit != 0) = false from hsb]
    exact readKey_unmasked f.Data
  have hzk : xorEncryptAux (List.replicate 4 0) 0 f.Data = f.Data := by
    refine xorEncryptAux_zero_key _ (by simp) ?_ 0 f.Data
    intro b hb
    exact List.eq_of_mem_replicate hb
  have hbits := firstByte_bits f.OpCode hop f.FinBit f.Rsv1 f.Rsv2 f.Rsv3
  refine ⟨f.firstByte :: ((sb :: ext) ++ f.Data),
    { FinBit := f.firstByte &&& finalBit != 0
      Rsv1 := f.firstByte &&& rsv1Bit != 0
      Rsv2 := f.firstByte &&& rsv2Bit != 0
      Rsv3 := f.firstByte &&& rsv3Bit != 0
      OpCode := f.firstByte &&& 15
      MaskBit := sb &&& maskBit != 0
      PayloadLength := f.PayloadLength
      Key := List.replicate 4 0
      Data := xorEncryptAux (List.replicate 4 0) 0 f.Data },
    hw, ?_, ?_⟩
  · exact ReadWebsocketFragment_build f.firstByte sb f.PayloadLength ext []
      f.Data (List.replicate 4 0) (h1 f.Data) h2 hlen (by simp)
  · refine eqModKey_of_fields f _ hbits.1 hbits.2.1 hbits.2.2.1 hbits.2.2.2.1
      hbits.2.2.2.2 (hsb.trans hmask.symm) rfl hzk ?_
    intro h
    rw [hmask] at h
    cases h

/-! ## Claim theorems -/

/-- C1 (amended): for every well-formed `WebsocketFragment` f with
`len(f.Data) = f.PayloadLength`, with a 4-byte key when `MaskBit` is set,
and — the amendment — an all-zero key (non-empty when `Data` is) when
`MaskBit` is clear, decoding the bytes produced by `WebsocketFragment.Write`
with `ReadWebsocketFragment` consumes them entirely and yields a fragment
equal to f on all fields, the `Key` field compared only when `MaskBit` is
true. -/
theorem C1_roundtrip (f : WebsocketFragment)
    (hwf : WellFormed f)
    (hlen : f.Data.length = f.PayloadLength)
    (hmk : f.MaskBit = true → f.Key.length = 4)
    (humk : f.MaskBit = false → (∀ b ∈ f.Key, b = 0) ∧ (f.Data ≠ [] → f.Key ≠ [])) :
    ∃ w g, f.Write = .ok w ∧ ReadWebsocketFragment w = some (g, []) ∧
      eqModKey g f = true := by
  obtain ⟨hop, hpl⟩ := hwf
  cases hmask : f.MaskBit with
  | true =>
    have hk4 := hmk hmask
    rcases Nat.lt_or_ge f.PayloadLength 126 with hsmall | h126
    · exact roundtrip_masked f hop hmask hk4 hlen (128 ||| f.PayloadLength % 256) []
        (lengthHeader_small true f.PayloadLength hsmall)
        (secondByte_bits_small f.PayloadLength hsmall true).1
        (fun r => by
          rw [show ((128 : Nat) ||| f.PayloadLength % 256) &&& 127 = f.PayloadLength from
            (secondByte_bits_small f.PayloadLength hsmall true).2]
          exact readLength_small f.PayloadLength hsmall r)
    · rcases Nat.lt_or_ge f.PayloadLength 65536 with hmid | h65536
      · exact roundtrip_masked f hop hmask hk4 hlen (128 ||| 126)
          [(f.PayloadLength >>> 8) % 256, f.PayloadLength % 256]
          (lengthHeader_mid true f.PayloadLength (by omega) hmid)
          (secondByte_bits_126 true).1
          (fun r => by
            rw [show ((128 : Nat) ||| 126) &&& 127 = 126 from (secondByte_bits_126 true).2]
            have h := readLength_two f.PayloadLength r
            rwa [beUint_two f.PayloadLength hmid] at h)
      · exact roundtrip_masked f hop hmask hk4 hlen (128 ||| 127)
          [(f.PayloadLength >>> 56) % 256, (f.PayloadLength >>> 48) % 256,
           (f.PayloadLength >>> 40) % 256, (f.PayloadLength >>> 32) % 256,
           (f.PayloadLength >>> 24) % 256, (f.PayloadLength >>> 16) % 256,
           (f.PayloadLength >>> 8) % 256, f.PayloadLength % 256]
          (lengthHeader_big true f.PayloadLength (by omega) (by omega))
          (secondByte_bits_127 true).1
          (fun r => by
            rw [show ((128 : Nat) ||| 127) &&& 127 = 127 from (secondByte_bits_127 true).2]
            have h := readLength_eight f.PayloadLength r
            rwa [beUint_eight f.PayloadLength hpl] at h)
  | false =>
    obtain ⟨hz, hne⟩ := humk hmask
    rcases Nat.lt_or_ge f.PayloadLength 126 with hsmall | h126
    · exact roundtrip_unmasked f hop hmask hz hne hlen (0 ||| f.PayloadLength % 256) []
        (lengthHeader_small false f.PayloadLength hsmall)
        (secondByte_bits_small f.PayloadLength hsmall false).1
        (fun r => by
          rw [show ((0 : Nat) ||| f.PayloadLength % 256) &&& 127 = f.PayloadLength from
            (secondByte_bits_small f.PayloadLength hsmall false).2]
          exact readLength_small f.PayloadLength hsmall r)
    · rcases Nat.lt_or_ge f.PayloadLength 65536 with hmid | h65536
      · exact roundtrip_unmasked f hop hmask hz hne hlen (0 ||| 126)
          [(f.PayloadLength >>> 8) % 256, f.PayloadLength % 256]
          (lengthHeader_mid false f.PayloadLength (by omega) hmid)
          (secondByte_bits_126 false).1
          (fun r => by
            rw [show ((0 : Nat) ||| 126) &&& 127 = 126 from (secondByte_bits_126 false).2]
            have h := readLength_two f.PayloadLength r
            rwa [beUint_two f.PayloadLength hmid] at h)
      · exact roundtrip_unmasked f hop hmask hz hne hlen (0 ||| 127)
          [(f.PayloadLength >>> 56) % 256, (f.PayloadLength >>> 48) % 256,
           (f.PayloadLength >>> 40) % 256, (f.PayloadLength >>> 32) % 256,
           (f.PayloadLength >>> 24) % 256, (f.PayloadLength >>> 16) % 256,
           (f.PayloadLength >>> 8) % 256, f.PayloadLength % 256]
          (lengthHeader_big false f.PayloadLength (by omega) (by omega))
          (secondByte_bits_127 false).1
          (fun r => by
            rw [show ((0 : Nat) ||| 127) &&& 127 = 127 from (secondByte_bits_127 false).2]
            have h := readLength_eight f.PayloadLength r
            rwa [beUint_eight f.PayloadLength hpl] at h)

/-- C1 witness: the round-trip theorem applied to the repository test's
valid masked frame. -/
theorem C1_witness :
    ∃ w g, exFrameA.Write = .ok w ∧ ReadWebsocketFragment w = some (g, []) ∧
      eqModKey g exFrameA = true :=
  C1_roundtrip exFrameA (by decide) (by decide) (by decide) (by decide)

/-- C1 counterexample: an unmasked fragment with a non-zero key satisfies
every hypothesis of the claim as stated (`len(Data) = PayloadLength`;
the key-length condition is vacuous since `MaskBit` is false), yet
decode∘encode changes its payload: the encoder XORs the data with the key
even when `MaskBit` is false. -/
theorem C1_counterexample :
    (cexC1Frame.Data.length = cexC1Frame.PayloadLength ∧
     (cexC1Frame.MaskBit = true → cexC1Frame.Key.length = 4) ∧
     WellFormed cexC1Frame) ∧
    cexC1Frame.Write = .ok [130, 1, 1] ∧
    (ReadWebsocketFragment [130, 1, 1]).map (fun p => eqModKey p.1 cexC1Frame) =
      some false := by
  decide

/-- C2: encoding a fragment with `MaskBit` set and a key whose length is
not 4 returns `ErrorMaskKeyLength` and delivers no bytes to the sink. -/
theorem C2_invalid_mask_key (f : WebsocketFragment)
    (hm : f.MaskBit = true) (hk : f.Key.length ≠ 4) :
    f.Write = .maskKeyError ∧ writtenBytes f.Write = [] := by
  have h : f.Write = .maskKeyError := by
    unfold WebsocketFragment.Write
    rw [if_pos ⟨hm, hk⟩]
  refine ⟨h, ?_⟩
  rw [h]
  rfl

/-- C2 witness: the repository test's 5-byte-key frame. -/
theorem C2_witness :
    exFrameBadKey.MaskBit = true ∧ exFrameBadKey.Key.length ≠ 4 ∧
    exFrameBadKey.Write = .maskKeyError ∧ writtenBytes exFrameBadKey.Write = [] := by
  refine ⟨by decide, by decide, ?_⟩
  exact C2_invalid_mask_key exFrameBadKey (by decide) (by decide)

/-- C3 (amended): with `MaskBit` false the encoder writes
`xorEncrypt(Data, Key)` as the payload; the data appears verbatim exactly
when the key bytes are all zero (and the key is non-empty whenever the
data is) — in particular for the all-zero key the decoder itself
produces. -/
theorem C3_unmasked_zero_key_verbatim (f : WebsocketFragment)
    (hm : f.MaskBit = false) (hz : ∀ b ∈ f.Key, b = 0)
    (hne : f.Data ≠ [] → f.Key ≠ []) :
    f.Write = .ok (f.firstByte :: (lengthHeader false f.PayloadLength ++ f.Data)) :=
  Write_ok_unmasked f hm hz hne

/-- C3 witness: an unmasked frame with the all-zero 4-byte key. -/
theorem C3_witness :
    exC3Frame.Write =
      .ok (exC3Frame.firstByte ::
        (lengthHeader false exC3Frame.PayloadLength ++ exC3Frame.Data)) :=
  C3_unmasked_zero_key_verbatim exC3Frame (by decide) (by decide) (by decide)

/-- C3 counterexample: an unmasked fragment with key `[5,0,0,0]` and data
`[7]`: the payload byte written is `7 XOR 5 = 2`, not the verbatim `7` the
claim requires regardless of the key contents. -/
theorem C3_counterexample :
    cexC3Frame.MaskBit = false ∧
    cexC3Frame.Write = .ok [130, 1, 2] ∧
    writtenBytes cexC3Frame.Write ≠
      cexC3Frame.firstByte ::
        (lengthHeader false cexC3Frame.PayloadLength ++ cexC3Frame.Data) := by
  decide

/-- C4: the encoder selects the length form by payload size, and at the
boundary values 125 / 126 / 65535 / 65536 the length bytes that follow the
first byte are the 7-bit form, `126` plus two big-endian bytes (twice),
and `127` plus eight big-endian bytes respectively. -/
theorem C4_length_encoding (f : WebsocketFragment)
    (hkey : ¬(f.MaskBit = true ∧ f.Key.length ≠ 4))
    (hpanic : ¬(f.Data ≠ [] ∧ f.Key = [])) :
    (∃ rest, f.Write = .ok (f.firstByte :: (lengthHeader f.MaskBit f.PayloadLength ++ rest))) ∧
    (f.PayloadLength = 125 →
      lengthHeader f.MaskBit f.PayloadLength = [(if f.MaskBit then maskBit else 0) ||| 125]) ∧
    (f.PayloadLength = 126 →
      lengthHeader f.MaskBit f.PayloadLength =
        [(if f.MaskBit then maskBit else 0) ||| 126, 0, 126]) ∧
    (f.PayloadLength = 65535 →
      lengthHeader f.MaskBit f.PayloadLength =
        [(if f.MaskBit then maskBit else 0) ||| 126, 255, 255]) ∧
    (f.PayloadLength = 65536 →
      lengthHeader f.MaskBit f.PayloadLength =
        [(if f.MaskBit then maskBit else 0) ||| 127, 0, 0, 0, 0, 0, 1, 0, 0]) := by
  refine ⟨?_, ?_, ?_, ?_, ?_⟩
  · have hxor : ∃ enc, xorEncrypt f.Data f.Key = some enc := by
      cases hd : f.Data with
      | nil => exact ⟨[], by simp [xorEncrypt]⟩
      | cons b rest =>
        have hkne : f.Key ≠ [] := fun hk0 => hpanic ⟨by rw [hd]; simp, hk0⟩
        exact ⟨_, hd ▸ xorEncrypt_of_key_ne_nil f.Data f.Key hkne⟩
    obtain ⟨enc, henc⟩ := hxor
    unfold WebsocketFragment.Write
    rw [if_neg hkey, henc]
    cases hm : f.MaskBit with
    | true => exact ⟨f.Key ++ enc, by simp⟩
    | false => exact ⟨enc, by simp⟩
  · intro h
    rw [h]
    cases f.MaskBit <;> decide
  · intro h
    rw [h]
    cases f.MaskBit <;> decide
  · intro h
    rw [h]
    cases f.MaskBit <;> decide
  · intro h
    rw [h]
    cases f.MaskBit <;> decide

/-- C4 witness: the theorem applied at the 16-bit boundary frame. -/
theorem C4_witness :
    (∃ rest, exC4Frame.Write =
      .ok (exC4Frame.firstByte ::
        (lengthHeader exC4Frame.MaskBit exC4Frame.PayloadLength ++ rest))) ∧
    lengthHeader exC4Frame.MaskBit exC4Frame.PayloadLength =
      [(if exC4Frame.MaskBit then maskBit else 0) ||| 126, 0, 126] :=
  ⟨(C4_length_encoding exC4Frame (by decide) (by decide)).1,
   (C4_length_encoding exC4Frame (by decide) (by decide)).2.2.1 (by decide)⟩

/-- C9: with `MaskBit` false, an empty key and non-empty data, the XOR
step's `i % len(key)` divides by zero and `Write` panics instead of
returning a value or an error. -/
theorem C9_empty_key_panics (f : WebsocketFragment)
    (hm : f.MaskBit = false) (hk : f.Key = []) (hd : f.Data ≠ []) :
    f.Write = .panicModByZero := by
  unfold WebsocketFragment.Write
  rw [if_neg (by simp [hm])]
  cases hdd : f.Data with
  | nil => exact absurd hdd hd
  | cons b rest => simp [hm, hk, hdd, xorEncrypt]

/-- C9 witness: the empty-key frame with data `[1,2,3]`. -/
theorem C9_witness :
    exC9Frame.MaskBit = false ∧ exC9Frame.Key = [] ∧ exC9Frame.Data ≠ [] ∧
    exC9Frame.Write = .panicModByZero :=
  ⟨by decide, by decide, by decide,
   C9_empty_key_panics exC9Frame (by decide) (by decide) (by decide)⟩

/-- C5: `getCert` memoizes per hostname — after a successful call, a
second call with the same hostname returns the identical certificate from
the cache, leaves the cache unchanged and does not invoke `GenerateCert` —
and when `GenerateCert` fails on a cache miss, the error is returned and
the cache is unchanged (the entry is not populated). -/
theorem C5_getCert_memoization {Cert : Type}
    (generateCert : String → Except String Cert)
    (certs : List (String × Cert)) (host : String) :
    (∀ c certs2 minted,
      getCert generateCert certs host = (.ok c, certs2, minted) →
      getCert generateCert certs2 host = (.ok c, certs2, false)) ∧
    (∀ e, generateCert host = .error e → certsLookup certs host = none →
      getCert generateCert certs host = (.error e, certs, true)) := by
  constructor
  · intro c certs2 minted h
    unfold getCert at h ⊢
    cases hl : certsLookup certs host with
    | some val =>
      rw [hl] at h
      simp only [Prod.mk.injEq, Except.ok.injEq] at h
      obtain ⟨hc, hcs, hm⟩ := h
      subst hc
      subst hcs
      rw [hl]
    | none =>
      rw [hl] at h
      cases hg : generateCert host with
      | error e =>
        rw [hg] at h
        simp at h
      | ok cert =>
        rw [hg] at h
        simp only [Prod.mk.injEq, Except.ok.injEq] at h
        obtain ⟨hc, hcs, hm⟩ := h
        subst hc
        subst hcs
        have hfound : certsLookup ((host, cert) :: certs) host = some cert := by
          simp [certsLookup]
        rw [hfound]
  · intro e hg hl
    unfold getCert
    rw [hl, hg]

/-- C5 witness: a `Nat`-valued certificate oracle; the memoization part is
applied after a first minting call, the error part on an empty cache. -/
theorem C5_witness :
    @getCert Nat (fun _ => .ok 42) [("example.com", 42)] "example.com" =
      (.ok 42, [("example.com", 42)], false) ∧
    @getCert Nat (fun _ => .error "mint failure") [] "example.com" =
      (.error "mint failure", [], true) :=
  ⟨(C5_getCert_memoization (fun _ => .ok 42) [] "example.com").1
      42 [("example.com", 42)] true (by rfl),
   (C5_getCert_memoization (fun _ => .error "mint failure") [] "example.com").2
      "mint failure" rfl rfl⟩

/-- C6: in `forwardReq`, a set `HandleRequest` handler returning a
non-nil response short-circuits — that response is returned and
`HttpClient.Do` is not invoked; when the handler returns nil the request
(with `RequestURI` cleared and scheme/host rewritten from the parsed
destination) is sent via `HttpClient.Do`. -/
theorem C6_forwardReq_shortCircuit {Response : Type}
    (handler : Int → Request → Option Response)
    (doRequest : Request → Except String Response)
    (parseURL : String → Except String (String × String))
    (session : Int) (req : Request) (dest : String) :
    (∀ resp, handler session req = some resp →
      forwardReq (some handler) doRequest parseURL session req dest = (.ok resp, false)) ∧
    (handler session req = none →
      ∀ scheme hostPart, parseURL dest = .ok (scheme, hostPart) →
        forwardReq (some handler) doRequest parseURL session req dest =
          (doRequest { req with requestURI := "", urlScheme := scheme, urlHost := hostPart },
            true)) := by
  constructor
  · intro resp h
    simp only [forwardReq, h]
  · intro h scheme hostPart hp
    simp only [forwardReq, forwardUpstream, h, hp]

/-- C6 witness: scenario E — a handler answering 500 for
`blocked.example` short-circuits and the upstream oracle is not called. -/
theorem C6_witness :
    @forwardReq Nat
      (some (fun _ r => if r.host == "blocked.example" then some 500 else none))
      (fun _ => .ok 200) (fun _ => .ok ("http", "blocked.example"))
      7 exC6Request "http://blocked.example/" = (.ok 500, false) :=
  (C6_forwardReq_shortCircuit
      (fun _ r => if r.host == "blocked.example" then some 500 else none)
      (fun _ => .ok 200) (fun _ => .ok ("http", "blocked.example"))
      7 exC6Request "http://blocked.example/").1 500 (by decide)

/-- C7: `computeAcceptKey` is the base64 encoding of the SHA-1 hash of
the client key concatenated with the fixed GUID, and on the RFC 6455
section 1.3 example key it yields the RFC's accept value. -/
theorem C7_computeAcceptKey :
    (∀ key, computeAcceptKey key = base64Encode (sha1 (strBytes key ++ keyGUID))) ∧
    computeAcceptKey "dGhlIHNhbXBsZSBub25jZQ==" = "s3pPLMBiTxaQ9kYGzzhZRbK+xOo=" :=
  ⟨fun _ => rfl, by decide⟩

/-- C8: at end-of-file the relay pump loop does NOT terminate — the body
hits the `continue` on `io.EOF`, so one iteration from an exhausted source
loops again with nothing consumed, and after any number of iterations the
loop still has not exited.  (The claim that the pump exits on EOF is
contradicted by the code.) -/
theorem C8_pump_never_exits_on_eof
    (handler : Option (WebsocketFragment → WebsocketFragment)) :
    interceptBody handler [] = .loopContinue [] [] ∧
    ∀ n, pumpIter handler n [] = ([], false) := by
  refine ⟨rfl, ?_⟩
  intro n
  induction n with
  | zero => rfl
  | succ n ih =>
    simp only [pumpIter, interceptBody]
    exact ih

/-- C10: a request carrying `Connection: Upgrade` and `Upgrade: websocket`
but no `Sec-WebSocket-Key` header passes `isWebSocketRequest` (which only
checks those two headers), yet `websocketHandshake` panics on it — the
unconditional index into the empty header-value slice, modelled as
`none`. -/
theorem C10_handshake_panics_without_key :
    isWebSocketRequest exC10Request = true ∧
    websocketHandshakeClientResponse exC10Request = none := by
  decide

end Yves
